import Mathlib

/-!
# DiscordAIBot-LavinMQBack: the queue worker's job pipeline

A shallow embedding of `src/index.js` (`Worker.executeTask`, `Worker.processTask`),
`src/ApiHandler.js` (`ApiHandler.makeRequest`) and `src/PineconeManager.js`
(`upsertUserMessage`, `upsertBotResponse`, `getUserConversationState`,
`convertStateToNumericalArray`, `convertNumericalArrayToState`).

Conventions of the embedding:

* a JavaScript string is the list of its UTF-16 code units (`JsStr`);
* a JavaScript value is a `JsVal`; numbers are integers (the code only observes
  whether a number is zero and what `typeof` says);
* a call that may throw returns `Except JsError _`; state that survives a throw
  (the `userConversations` map, the list of calls made) is threaded explicitly,
  so a throw never undoes a write;
* the remote collaborators (`JSON.parse`, the Pinecone index,
  `queueHandler.sendJobResult`) are fields of an environment record and the HTTP
  call `axios.post` is an argument of `makeRequest`; every call the worker makes on
  a collaborator object is listed in `Outcome.events`.
-/

set_option autoImplicit false

namespace DiscordAIBot

/-! ## JavaScript strings -/

/-- A JavaScript string: its UTF-16 code units. -/
abbrev JsStr := List Nat

/-- UTF-16 code units of one Unicode scalar. -/
def utf16Char (c : Char) : List Nat :=
  if c.toNat < 65536 then [c.toNat]
  else [55296 + (c.toNat - 65536) / 1024, 56320 + (c.toNat - 65536) % 1024]

/-- The JavaScript string written as a literal. -/
def js (s : String) : JsStr :=
  s.toList.flatMap utf16Char

/-- ECMAScript `WhiteSpace` and `LineTerminator` code units, the ones
`String.prototype.trim` removes. -/
def isWhiteSpace (c : Nat) : Bool :=
  c == 9 || c == 10 || c == 11 || c == 12 || c == 13 || c == 32 || c == 160 ||
  c == 5760 || (8192 ≤ c && c ≤ 8202) || c == 8232 || c == 8233 || c == 8239 ||
  c == 8287 || c == 12288 || c == 65279

/-- Embeds `String.prototype.trimStart`. -/
def trimStart (s : JsStr) : JsStr :=
  s.dropWhile isWhiteSpace

/-- Embeds `String.prototype.trimEnd`. -/
def trimEnd (s : JsStr) : JsStr :=
  (s.reverse.dropWhile isWhiteSpace).reverse

/-- Embeds `String.prototype.trim`. -/
def trim (s : JsStr) : JsStr :=
  trimEnd (trimStart s)

/-! ## JavaScript values -/

/-- A thrown JavaScript error, by class. -/
inductive JsError where
  | typeError
  | syntaxError
  | error (message : String)
  deriving DecidableEq, Repr

/-- JavaScript values as `JSON.parse` and the HTTP client produce them. -/
inductive JsVal where
  | undefined
  | null
  | bool (b : Bool)
  | num (n : Int)
  | str (s : JsStr)
  | arr (elems : List JsVal)
  | obj (fields : List (String × JsVal))

namespace JsVal

/-- The `ToBoolean` abstract operation: what `!v` and `v || w` test. -/
def truthy : JsVal → Bool
  | undefined => false
  | null => false
  | bool b => b
  | num n => n != 0
  | str s => !s.isEmpty
  | arr _ => true
  | obj _ => true

/-- Test for `typeof v === 'string'`. -/
def isString : JsVal → Bool
  | str _ => true
  | _ => false

/-- Value of a run of decimal digits, continuing from `acc`. -/
def digitsValue : List Char → Nat → Option Nat
  | [], acc => some acc
  | c :: cs, acc =>
    if c.isDigit then digitsValue cs (10 * acc + (c.toNat - 48)) else none

/-- Array index named by a canonical numeric property key (`"0"`, `"17"`; not `"01"`). -/
def indexOfKey (key : String) : Option Nat :=
  match key.toList with
  | [] => none
  | [c] => digitsValue [c] 0
  | c :: cs => if c == '0' then none else digitsValue (c :: cs) 0

/-- Property read `v.key` / `v[key]` (own data properties, `length` and indices of
arrays and strings). Reading a property of `undefined` or `null` throws. -/
def getProp (v : JsVal) (key : String) : Except JsError JsVal :=
  match v with
  | undefined => .error .typeError
  | null => .error .typeError
  | bool _ => .ok undefined
  | num _ => .ok undefined
  | str s =>
    if key == "length" then .ok (num s.length)
    else match indexOfKey key with
      | some i => .ok (match s.get? i with | some c => str [c] | none => undefined)
      | none => .ok undefined
  | arr elems =>
    if key == "length" then .ok (num elems.length)
    else match indexOfKey key with
      | some i => .ok (elems.getD i undefined)
      | none => .ok undefined
  | obj fields =>
    match fields.reverse.find? (fun kv => kv.1 == key) with
    | some kv => .ok kv.2
    | none => .ok undefined

/-- Method call `v.trim()`: defined on strings only; on any other value `v.trim`
is not a function and the call throws. -/
def callTrim : JsVal → Except JsError JsStr
  | str s => .ok (trim s)
  | _ => .error .typeError

/-- Method call `v.split('')`: the code units of a string; throws on any other value. -/
def callSplitChars : JsVal → Except JsError (List JsStr)
  | str s => .ok (s.map fun c => [c])
  | _ => .error .typeError

/-- The `SameValueZero` comparison `Map` uses on keys. Objects and arrays compare by
reference, and every `JSON.parse` allocates fresh ones, so two of them from two
messages are never the same key. -/
def sameValueZero : JsVal → JsVal → Bool
  | undefined, undefined => true
  | null, null => true
  | bool a, bool b => a == b
  | num a, num b => a == b
  | str a, str b => a == b
  | _, _ => false

/-- Primitive values: the keys a later `Map.get` can find again. -/
def isPrimitive : JsVal → Bool
  | arr _ => false
  | obj _ => false
  | _ => true

end JsVal

/-! ## PineconeManager -/

/-- The `ToUint16` conversion `String.fromCharCode` applies to each argument. -/
def toUint16 (x : Int) : Nat :=
  (x % 65536).toNat

/-- Embeds `PineconeManager.convertStateToNumericalArray(state, dimension)`:
the code units of `state`, zero-padded or cut to exactly `dimension` entries.
Throws when `state` has no `split` method. -/
def convertStateToNumericalArray (state : JsVal) (dimension : Nat) :
    Except JsError (List Int) :=
  match state.callSplitChars with
  | .error e => .error e
  | .ok chars =>
    let array : List Int := chars.map fun char => (char.headD 0 : Nat)
    if array.length < dimension then
      .ok (array ++ List.replicate (dimension - array.length) 0)
    else
      .ok (array.take dimension)

/-- Embeds `PineconeManager.convertNumericalArrayToState(array)`:
`String.fromCharCode(...array).trim()`. -/
def convertNumericalArrayToState (array : List Int) : JsStr :=
  trim (array.map toUint16)

/-- Which of a user's two records a vector is stored under: the id suffix
`_user` or `_bot`. -/
inductive RecordKind where
  | user
  | bot
  deriving DecidableEq, Repr

/-- One match of an `index.query` response; `values` is absent when the index
returns none. -/
structure QueryMatch where
  values : Option (List Int)

/-- The part of an `index.query` response the code reads: its `matches` field. -/
structure QueryResponse where
  queryMatches : Option (List QueryMatch)

/-- The collaborators outside the repository, as the worker reaches them. -/
structure Env where
  /-- Embeds `JSON.parse(msg.content.toString())`. -/
  jsonParse : JsStr → Except JsError JsVal
  /-- Embeds `this.pinecone.index(this.indexName)`. -/
  pineconeIndex : Except JsError Unit
  /-- Embeds `index.query` with `topK: 1` on the user record of `id`. -/
  indexQuery : JsVal → Except JsError QueryResponse
  /-- Embeds `index.upsert` of one vector under the record of `id`. -/
  indexUpsert : JsVal → RecordKind → List Int → Except JsError Unit
  /-- Embeds `queueHandler.sendJobResult` with `userId` and `response`. -/
  sendJobResult : JsVal → JsVal → Except JsError Unit
  /-- Embeds `PineconeManager.userDimension` (62 unless the constructor is told otherwise). -/
  userDimension : Nat
  /-- Embeds `PineconeManager.botDimension`. -/
  botDimension : Nat

/-- The `try` block of `PineconeManager.upsertUserMessage`. -/
def upsertUserMessage.tryBlock (env : Env) (id userMessage : JsVal) : Except JsError Unit :=
  match env.pineconeIndex with
  | .error e => .error e
  | .ok () =>
    match convertStateToNumericalArray userMessage env.userDimension with
    | .error e => .error e
    | .ok numericalUserMessage => env.indexUpsert id .user numericalUserMessage

/-- Embeds `PineconeManager.upsertUserMessage(id, userMessage)`: whatever the `try` block
throws is caught and printed. -/
def upsertUserMessage (env : Env) (id userMessage : JsVal) : Except JsError Unit :=
  match upsertUserMessage.tryBlock env id userMessage with
  | .ok () => .ok ()
  | .error _ => .ok ()

/-- The `try` block of `PineconeManager.upsertBotResponse`. -/
def upsertBotResponse.tryBlock (env : Env) (id botResponse : JsVal) : Except JsError Unit :=
  match env.pineconeIndex with
  | .error e => .error e
  | .ok () =>
    match convertStateToNumericalArray botResponse env.botDimension with
    | .error e => .error e
    | .ok numericalBotResponse => env.indexUpsert id .bot numericalBotResponse

/-- Embeds `PineconeManager.upsertBotResponse(id, botResponse)`. -/
def upsertBotResponse (env : Env) (id botResponse : JsVal) : Except JsError Unit :=
  match upsertBotResponse.tryBlock env id botResponse with
  | .ok () => .ok ()
  | .error _ => .ok ()

/-- The `try` block of `PineconeManager.getUserConversationState`. Spreading absent
`values` into `String.fromCharCode` throws. -/
def getUserConversationState.tryBlock (env : Env) (id : JsVal) : Except JsError JsStr :=
  match env.pineconeIndex with
  | .error e => .error e
  | .ok () =>
    match env.indexQuery id with
    | .error e => .error e
    | .ok userResponse =>
      match userResponse.queryMatches with
      | some (first :: _) =>
        match first.values with
        | some values => .ok (convertNumericalArrayToState values)
        | none => .error .typeError
      | _ => .ok []

/-- Embeds `PineconeManager.getUserConversationState(id)`: the `catch` returns `''`. -/
def getUserConversationState (env : Env) (id : JsVal) : Except JsError JsStr :=
  match getUserConversationState.tryBlock env id with
  | .ok state => .ok state
  | .error _ => .ok []

/-! ## ApiHandler -/

/-- Embeds `Map.prototype.get` on the conversation map. -/
def mapGet (m : List (JsVal × JsStr)) (key : JsVal) : Option JsStr :=
  (m.find? fun entry => entry.1.sameValueZero key).map Prod.snd

/-- Embeds `Map.prototype.set` on the conversation map. -/
def mapSet (m : List (JsVal × JsStr)) (key : JsVal) (value : JsStr) : List (JsVal × JsStr) :=
  if m.any (fun entry => entry.1.sameValueZero key) then
    m.map fun entry => if entry.1.sameValueZero key then (entry.1, value) else entry
  else
    m ++ [(key, value)]

/-- The fields of an `ApiHandler` instance the request path reads or writes. -/
structure ApiHandler where
  systemPrompt : JsStr
  userConversations : List (JsVal × JsStr)

namespace ApiHandler

/-- The state the constructor leaves: empty system prompt, empty map. -/
def new : ApiHandler :=
  { systemPrompt := js "", userConversations := [] }

/-- First statement of `makeRequest`:
`this.userConversations.get(userId) || "[INST] <<SYS>>" + systemPrompt + "<</SYS>>\n\n"`. -/
def userHistory (self : ApiHandler) (userId : JsVal) : JsStr :=
  match mapGet self.userConversations userId with
  | some history =>
    if history.isEmpty then js "[INST] <<SYS>>" ++ self.systemPrompt ++ js "<</SYS>>\n\n"
    else history
  | none => js "[INST] <<SYS>>" ++ self.systemPrompt ++ js "<</SYS>>\n\n"

/-- The prompt `makeRequest` assembles (lines 11 to 20), or the error it throws on
an unusable `userInput`. The third argument of the call, the context the worker
loaded, has no parameter in `makeRequest(userId, userInput)` and is never read. -/
def prompt (self : ApiHandler) (userId userInput _context : JsVal) : Except JsError JsStr :=
  if !userInput.truthy then
    .error (.error "User input is empty or undefined.")
  else
    match userInput.callTrim, userInput with
    | .error e, _ => .error e
    | .ok trimmed, .str input =>
      if trimmed.isEmpty then .error (.error "User input is empty or undefined.")
      else .ok (self.userHistory userId ++ (input ++ js "[/INST]"))
    | .ok _, _ => .error .typeError

/-- Lines 35 to 45 of `makeRequest`: the structure check on the HTTP response, then
`response.data.output.choices[0].text.trim()` and the empty-reply check. -/
def modelReply (response : JsVal) : Except JsError JsStr := do
  if !response.truthy then
    throw (.error "Invalid or empty response structure from API")
  let data ← response.getProp "data"
  if !data.truthy then
    throw (.error "Invalid or empty response structure from API")
  let output ← data.getProp "output"
  if !output.truthy then
    throw (.error "Invalid or empty response structure from API")
  let choices ← output.getProp "choices"
  if !choices.truthy then
    throw (.error "Invalid or empty response structure from API")
  let length ← choices.getProp "length"
  if !length.truthy then
    throw (.error "Invalid or empty response structure from API")
  let first ← choices.getProp "0"
  let text ← first.getProp "text"
  let modelReply ← text.callTrim
  if modelReply.isEmpty then
    throw (.error "Received an empty string as response from the model.")
  return modelReply

/-- Embeds `ApiHandler.makeRequest(userId, userInput)`, called by the worker with a third
argument. `axiosPost` is the HTTP call, given the prompt of the request body. Every
throw leaves the instance as it was; the only write is the `set` before `return`. -/
def makeRequest (axiosPost : JsStr → Except JsError JsVal) (self : ApiHandler)
    (userId userInput context : JsVal) : Except JsError JsVal × ApiHandler :=
  match self.prompt userId userInput context with
  | .error e => (.error e, self)
  | .ok prompt =>
    match axiosPost prompt with
    | .error e => (.error e, self)
    | .ok response =>
      match modelReply response with
      | .error e => (.error e, self)
      | .ok modelReply =>
        (.ok (.str modelReply),
          { self with
            userConversations :=
              mapSet self.userConversations userId
                (self.userHistory userId ++ modelReply ++ js "[/s][INST]") })

end ApiHandler

/-! ## Worker -/

/-- Severity of a `logger` call. -/
inductive LogLevel where
  | warn
  | error
  deriving DecidableEq, Repr

/-- A call the worker makes on one of its collaborator objects, with its arguments.
Of a logged line, `message` keeps the fixed text it starts with. -/
inductive Event where
  | getUserConversationState (id : JsVal)
  | makeRequest (userId userInput context : JsVal)
  | upsertUserMessage (id userMessage : JsVal)
  | upsertBotResponse (id botResponse : JsVal)
  | sendJobResult (userId response : JsVal)
  | log (level : LogLevel) (message : String)

namespace Event

/-- Calls on the context store, the inference client or the result queue. -/
def isCall : Event → Bool
  | log _ _ => false
  | _ => true

/-- Calls of `upsertUserMessage` or `upsertBotResponse`. -/
def isUpsert : Event → Bool
  | upsertUserMessage _ _ => true
  | upsertBotResponse _ _ => true
  | _ => false

/-- Calls of `queueHandler.sendJobResult`. -/
def isSend : Event → Bool
  | sendJobResult _ _ => true
  | _ => false

end Event

/-- What one call of a worker method leaves behind: the value returned or the error
thrown, the inference client's state, and the calls made, oldest first. -/
structure Outcome (σ α : Type) where
  result : Except JsError α
  api : σ
  events : List Event

/-- An inference client as the worker sees it: `apiHandler.makeRequest` called with
`(userId, query, userState)` on a client in state `σ`. -/
abbrev Client (σ : Type) := σ → JsVal → JsVal → JsVal → Except JsError JsVal × σ

/-- The queue message handed to `executeTask`; `content` is the payload buffer,
already decoded by `toString`, or absent. -/
structure Message where
  content : Option JsStr

/-- Embeds `Worker.processTask(jobData)`. -/
def processTask {σ : Type} (env : Env) (makeRequest : Client σ) (jobData : JsVal)
    (api : σ) : Outcome σ JsVal :=
  match jobData.getProp "userId", jobData.getProp "query" with
  | .error e, _ => ⟨.error e, api, []⟩
  | .ok _, .error e => ⟨.error e, api, []⟩
  | .ok userId, .ok query =>
    match getUserConversationState env userId with
    | .error e => ⟨.error e, api, [.getUserConversationState userId]⟩
    | .ok userState =>
      let called : List Event :=
        [.getUserConversationState userId, .makeRequest userId query (.str userState)]
      match makeRequest api userId query (.str userState) with
      | (.error e, api) => ⟨.error e, api, called⟩
      | (.ok response, api) =>
        if !response.isString then
          ⟨.ok (.str (js "Error: Invalid API response type.")), api,
            called ++ [.log .error "API response is of type"]⟩
        else
          match response.callTrim with
          | .error e => ⟨.error e, api, called⟩
          | .ok response =>
            if response.isEmpty then
              ⟨.ok (.str (js "Error: Empty reply from the conversation partner.")), api,
                called ++ [.log .error "Received an empty string as response for userId="]⟩
            else
              match upsertUserMessage env userId query with
              | .error e => ⟨.error e, api, called ++ [.upsertUserMessage userId query]⟩
              | .ok () =>
                let called := called ++
                  [.upsertUserMessage userId query, .upsertBotResponse userId (.str response)]
                match upsertBotResponse env userId (.str response) with
                | .error e => ⟨.error e, api, called⟩
                | .ok () => ⟨.ok (.str response), api, called⟩

/-- The `try` block of `Worker.executeTask` (lines 44 to 62). -/
def executeTask.tryBlock {σ : Type} (env : Env) (makeRequest : Client σ) (content : JsStr)
    (api : σ) : Outcome σ Unit :=
  match env.jsonParse content with
  | .error e => ⟨.error e, api, []⟩
  | .ok jobData =>
    match jobData.getProp "userId" with
    | .error e => ⟨.error e, api, []⟩
    | .ok userId =>
      if !userId.truthy then
        ⟨.ok (), api, [.log .error "Job data missing userId or query."]⟩
      else
        match jobData.getProp "query" with
        | .error e => ⟨.error e, api, []⟩
        | .ok query =>
          if !query.truthy then
            ⟨.ok (), api, [.log .error "Job data missing userId or query."]⟩
          else
            match processTask env makeRequest jobData api with
            | ⟨.error e, api, called⟩ => ⟨.error e, api, called⟩
            | ⟨.ok response, api, called⟩ =>
              if !response.truthy then
                ⟨.ok (), api, called ++
                  [.log .error "The response is either null or the returned promise is unresolved."]⟩
              else
                match response.callTrim with
                | .error e => ⟨.error e, api, called⟩
                | .ok trimmed =>
                  if trimmed.isEmpty then
                    ⟨.ok (), api,
                      called ++
                        [.log .error "The response is empty or whitespace. JobData: userId="]⟩
                  else
                    match env.sendJobResult userId response with
                    | .error e => ⟨.error e, api, called ++ [.sendJobResult userId response]⟩
                    | .ok () => ⟨.ok (), api, called ++ [.sendJobResult userId response]⟩

/-- Embeds `Worker.executeTask(msg)`: the guard on the message, then the `try` block, whose
every throw the `catch` logs. -/
def executeTask {σ : Type} (env : Env) (makeRequest : Client σ) (msg : Option Message)
    (api : σ) : Outcome σ Unit :=
  match msg with
  | none => ⟨.ok (), api, [.log .warn "Invalid message format from the queue."]⟩
  | some m =>
    match m.content with
    | none => ⟨.ok (), api, [.log .warn "Invalid message format from the queue."]⟩
    | some content =>
      match executeTask.tryBlock env makeRequest content api with
      | ⟨.ok (), api, called⟩ => ⟨.ok (), api, called⟩
      | ⟨.error _, api, called⟩ =>
        ⟨.ok (), api, called ++ [.log .error "Error processing message: "]⟩

/-! ## Concrete collaborators for the scenarios -/

/-- A store and queue that always answer: the parser yields `parsed` for every
payload, the index is empty, and `index.upsert` fails exactly when `storeFails`. -/
def Env.scenario (parsed : Except JsError JsVal) (storeFails : Bool) : Env where
  jsonParse := fun _ => parsed
  pineconeIndex := .ok ()
  indexQuery := fun _ => .ok { queryMatches := some [] }
  indexUpsert := fun _ _ _ => if storeFails then .error (.error "upsert failed") else .ok ()
  sendJobResult := fun _ _ => .ok ()
  userDimension := 62
  botDimension := 62

/-- An inference client without state that answers every call with `answer`. -/
def Client.const (answer : Except JsError JsVal) : Client Unit :=
  fun api _ _ _ => (answer, api)

/-- The job `{userId, query}` as `JSON.parse` returns it. -/
def job (userId query : String) : JsVal :=
  .obj [("userId", .str (js userId)), ("query", .str (js query))]

/-- An HTTP response whose first choice has the given text. -/
def completion (text : String) : JsVal :=
  .obj [("data", .obj [("output", .obj [("choices", .arr [.obj [("text", .str (js text))]])])])]

/-! ## Vocabulary of the properties -/

/-- The context `getUserConversationState` hands to the worker: what the `try`
block returned, or `''` from the `catch`. -/
def loadedState (env : Env) (id : JsVal) : JsStr :=
  match getUserConversationState.tryBlock env id with
  | .ok state => state
  | .error _ => []

/-- A field of the parsed job is missing or empty: reading it gives `undefined` or
`''`, or cannot be done at all because the payload is `null`. -/
def JsVal.missingOrEmpty (v : JsVal) (key : String) : Bool :=
  match v.getProp key with
  | .ok .undefined => true
  | .ok (.str s) => s.isEmpty
  | .ok _ => false
  | .error _ => true

/-- The value the provider returned as the reply: `response.data.output.choices[0].text`,
read as lines 35 to 39 of `makeRequest` read it, after the structure check and before
`.trim()` is called on it. -/
def ApiHandler.replyText (response : JsVal) : Except JsError JsVal := do
  if !response.truthy then
    throw (.error "Invalid or empty response structure from API")
  let data ← response.getProp "data"
  if !data.truthy then
    throw (.error "Invalid or empty response structure from API")
  let output ← data.getProp "output"
  if !output.truthy then
    throw (.error "Invalid or empty response structure from API")
  let choices ← output.getProp "choices"
  if !choices.truthy then
    throw (.error "Invalid or empty response structure from API")
  let length ← choices.getProp "length"
  if !length.truthy then
    throw (.error "Invalid or empty response structure from API")
  let first ← choices.getProp "0"
  first.getProp "text"

/-- A run of successful `makeRequest` calls for one user: `Turns userId h replies h'`
says that, starting from the instance `h`, calls for `userId` (each with its own
input, context argument and provider answer) returned `replies`, oldest first, and
left the instance `h'`. -/
inductive Turns (userId : JsVal) : ApiHandler → List JsStr → ApiHandler → Prop where
  | done (h : ApiHandler) : Turns userId h [] h
  | turn {h h1 h2 : ApiHandler} {reply : JsStr} {replies : List JsStr}
      (axiosPost : JsStr → Except JsError JsVal) (userInput context : JsVal) :
      ApiHandler.makeRequest axiosPost h userId userInput context = (.ok (.str reply), h1) →
      Turns userId h1 replies h2 → Turns userId h (reply :: replies) h2

/-! ## Trimming -/

theorem dropWhile_head_false {p : Nat → Bool} {a : Nat} {t : List Nat}
    (h : List.dropWhile p (a :: t) = a :: t) : p a = false := by
  by_contra hp
  have hp' : p a = true := by simpa using hp
  have hlen := congrArg List.length h
  rw [List.dropWhile_cons_of_pos hp'] at hlen
  have := (List.dropWhile_suffix p (l := t)).length_le
  simp at hlen
  omega

theorem trimStart_trimEnd_of_trimStart {t : JsStr} (h : trimStart t = t) :
    trimStart (trimEnd t) = trimEnd t := by
  unfold trimStart trimEnd at *
  cases t with
  | nil => simp
  | cons a t =>
    have ha := dropWhile_head_false h
    have hpre : ((a :: t).reverse.dropWhile isWhiteSpace).reverse <+: a :: t :=
      List.rdropWhile_prefix isWhiteSpace (a :: t)
    generalize ((a :: t).reverse.dropWhile isWhiteSpace).reverse = u at hpre
    cases u with
    | nil => simp
    | cons b u =>
      have hb : b = a := by
        obtain ⟨r, hr⟩ := hpre
        simp at hr
        exact hr.1
      subst hb
      simp [List.dropWhile, ha]

theorem trimEnd_idem (s : JsStr) : trimEnd (trimEnd s) = trimEnd s := by
  unfold trimEnd
  simp [List.dropWhile_idempotent]

theorem trimStart_idem (s : JsStr) : trimStart (trimStart s) = trimStart s := by
  unfold trimStart
  exact List.dropWhile_idempotent _ _

/-- Trimming a trimmed string changes nothing. -/
theorem trim_idem (s : JsStr) : trim (trim s) = trim s := by
  unfold trim
  rw [trimStart_trimEnd_of_trimStart (trimStart_idem s), trimEnd_idem]

/-! ## The store methods never throw -/

theorem upsertUserMessage_ok (env : Env) (id userMessage : JsVal) :
    upsertUserMessage env id userMessage = .ok () := by
  unfold upsertUserMessage
  split <;> rfl

theorem upsertBotResponse_ok (env : Env) (id botResponse : JsVal) :
    upsertBotResponse env id botResponse = .ok () := by
  unfold upsertBotResponse
  split <;> rfl

theorem getUserConversationState_ok (env : Env) (id : JsVal) :
    getUserConversationState env id = .ok (loadedState env id) := by
  unfold getUserConversationState loadedState
  split <;> simp_all

/-! ## The four ways `processTask` ends once the job has both fields -/

theorem processTask_throw {σ : Type} (env : Env) (mk : Client σ) (jobData userId query : JsVal)
    (api api1 : σ) (e : JsError)
    (hu : jobData.getProp "userId" = .ok userId) (hq : jobData.getProp "query" = .ok query)
    (hmk : mk api userId query (.str (loadedState env userId)) = (.error e, api1)) :
    processTask env mk jobData api =
      ⟨.error e, api1,
        [.getUserConversationState userId,
         .makeRequest userId query (.str (loadedState env userId))]⟩ := by
  unfold processTask
  simp [hu, hq, getUserConversationState_ok, hmk]

theorem processTask_not_string {σ : Type} (env : Env) (mk : Client σ)
    (jobData userId query v : JsVal) (api api1 : σ)
    (hu : jobData.getProp "userId" = .ok userId) (hq : jobData.getProp "query" = .ok query)
    (hmk : mk api userId query (.str (loadedState env userId)) = (.ok v, api1))
    (hv : v.isString = false) :
    processTask env mk jobData api =
      ⟨.ok (.str (js "Error: Invalid API response type.")), api1,
        [.getUserConversationState userId,
         .makeRequest userId query (.str (loadedState env userId)),
         .log .error "API response is of type"]⟩ := by
  unfold processTask
  simp [hu, hq, getUserConversationState_ok, hmk, hv]

theorem processTask_blank {σ : Type} (env : Env) (mk : Client σ)
    (jobData userId query : JsVal) (s : JsStr) (api api1 : σ)
    (hu : jobData.getProp "userId" = .ok userId) (hq : jobData.getProp "query" = .ok query)
    (hmk : mk api userId query (.str (loadedState env userId)) = (.ok (.str s), api1))
    (hs : trim s = []) :
    processTask env mk jobData api =
      ⟨.ok (.str (js "Error: Empty reply from the conversation partner.")), api1,
        [.getUserConversationState userId,
         .makeRequest userId query (.str (loadedState env userId)),
         .log .error "Received an empty string as response for userId="]⟩ := by
  unfold processTask
  simp [hu, hq, getUserConversationState_ok, hmk, JsVal.isString, JsVal.callTrim, hs]

theorem processTask_valid {σ : Type} (env : Env) (mk : Client σ)
    (jobData userId query : JsVal) (s : JsStr) (api api1 : σ)
    (hu : jobData.getProp "userId" = .ok userId) (hq : jobData.getProp "query" = .ok query)
    (hmk : mk api userId query (.str (loadedState env userId)) = (.ok (.str s), api1))
    (hs : trim s ≠ []) :
    processTask env mk jobData api =
      ⟨.ok (.str (trim s)), api1,
        [.getUserConversationState userId,
         .makeRequest userId query (.str (loadedState env userId)),
         .upsertUserMessage userId query,
         .upsertBotResponse userId (.str (trim s))]⟩ := by
  unfold processTask
  simp [hu, hq, getUserConversationState_ok, hmk, JsVal.isString, JsVal.callTrim, hs,
    upsertUserMessage_ok, upsertBotResponse_ok]

/-! ## What `processTask` returns and which calls it makes, in every case -/

theorem errorInvalid_trim :
    trim (js "Error: Invalid API response type.") = js "Error: Invalid API response type." := by
  decide

theorem errorEmpty_trim :
    trim (js "Error: Empty reply from the conversation partner.") =
      js "Error: Empty reply from the conversation partner." := by
  decide

theorem callTrim_ok {v : JsVal} {t : JsStr} (h : v.callTrim = .ok t) :
    ∃ s, v = .str s ∧ t = trim s := by
  cases v <;> simp [JsVal.callTrim] at h
  exact ⟨_, rfl, h.symm⟩

theorem processTask_result_trimmed {σ : Type} (env : Env) (mk : Client σ) (jobData : JsVal)
    (api : σ) (v : JsVal) (h : (processTask env mk jobData api).result = .ok v) :
    ∃ s, v = .str s ∧ trim s = s := by
  unfold processTask at h
  repeat' split at h
  all_goals simp at h
  · exact ⟨_, h.symm, errorInvalid_trim⟩
  · exact ⟨_, h.symm, errorEmpty_trim⟩
  · rename_i t ht _ _ _ _ _
    obtain ⟨s, -, rfl⟩ := callTrim_ok ht
    exact ⟨_, h.symm, trim_idem s⟩

theorem processTask_events_not_send {σ : Type} (env : Env) (mk : Client σ) (jobData : JsVal)
    (api : σ) : (processTask env mk jobData api).events.filter Event.isSend = [] := by
  unfold processTask
  repeat' split
  all_goals simp [Event.isSend]

/-! ## How `executeTask` ends -/

theorem executeTask_of_processTask_throw {σ : Type} (env : Env) (mk : Client σ)
    (content : JsStr) (jobData userId query : JsVal) (api api1 : σ) (e : JsError)
    (called : List Event)
    (hparse : env.jsonParse content = .ok jobData)
    (hu : jobData.getProp "userId" = .ok userId) (hut : userId.truthy = true)
    (hq : jobData.getProp "query" = .ok query) (hqt : query.truthy = true)
    (hp : processTask env mk jobData api = ⟨.error e, api1, called⟩) :
    executeTask env mk (some ⟨some content⟩) api =
      ⟨.ok (), api1, called ++ [.log .error "Error processing message: "]⟩ := by
  unfold executeTask executeTask.tryBlock
  simp [hparse, hu, hut, hq, hqt, hp]

theorem executeTask_of_processTask_ok {σ : Type} (env : Env) (mk : Client σ)
    (content : JsStr) (jobData userId query : JsVal) (api api1 : σ) (r : JsStr)
    (called : List Event)
    (hparse : env.jsonParse content = .ok jobData)
    (hu : jobData.getProp "userId" = .ok userId) (hut : userId.truthy = true)
    (hq : jobData.getProp "query" = .ok query) (hqt : query.truthy = true)
    (hp : processTask env mk jobData api = ⟨.ok (.str r), api1, called⟩)
    (hr : r ≠ []) (hrt : trim r = r) :
    (executeTask env mk (some ⟨some content⟩) api).result = .ok () ∧
    (executeTask env mk (some ⟨some content⟩) api).api = api1 ∧
    ((executeTask env mk (some ⟨some content⟩) api).events =
        called ++ [.sendJobResult userId (.str r)] ∨
     (executeTask env mk (some ⟨some content⟩) api).events =
        called ++ [.sendJobResult userId (.str r), .log .error "Error processing message: "]) := by
  have h1 : (JsVal.str r).truthy = true := by simp [JsVal.truthy, hr]
  have h2 : (JsVal.str r).callTrim = .ok r := by simp [JsVal.callTrim, hrt]
  unfold executeTask executeTask.tryBlock
  simp only [hparse, hu, hut, hq, hqt, hp, h1, h2]
  cases hsend : env.sendJobResult userId (.str r) <;> simp [hr]

theorem truthy_false_of_missingOrEmpty {v x : JsVal} {key : String}
    (hm : v.missingOrEmpty key = true) (hx : v.getProp key = .ok x) : x.truthy = false := by
  unfold JsVal.missingOrEmpty at hm
  rw [hx] at hm
  cases x <;> simp_all [JsVal.truthy]

theorem executeTask_invalid_job {σ : Type} (env : Env) (mk : Client σ) (content : JsStr)
    (api : σ) (v : JsVal) (hv : env.jsonParse content = .ok v)
    (hm : v.missingOrEmpty "userId" = true ∨ v.missingOrEmpty "query" = true) :
    (executeTask env mk (some ⟨some content⟩) api).result = .ok () ∧
    (executeTask env mk (some ⟨some content⟩) api).events.filter Event.isCall = [] ∧
    (executeTask env mk (some ⟨some content⟩) api).api = api := by
  unfold executeTask executeTask.tryBlock
  simp only [hv]
  cases hu : v.getProp "userId" with
  | error e => simp [Event.isCall]
  | ok u =>
    by_cases hut : u.truthy = true
    · cases hq : v.getProp "query" with
      | error e => simp [hut, Event.isCall]
      | ok q =>
        have hqf : q.truthy = false := by
          rcases hm with hm | hm
          · rw [truthy_false_of_missingOrEmpty hm hu] at hut
            exact absurd hut (by simp)
          · exact truthy_false_of_missingOrEmpty hm hq
        simp [hut, hqf, Event.isCall]
    · simp [hut, Event.isCall]

theorem executeTask_unparseable {σ : Type} (env : Env) (mk : Client σ) (content : JsStr)
    (api : σ) (e : JsError) (he : env.jsonParse content = .error e) :
    (executeTask env mk (some ⟨some content⟩) api).result = .ok () ∧
    (executeTask env mk (some ⟨some content⟩) api).events.filter Event.isCall = [] ∧
    (executeTask env mk (some ⟨some content⟩) api).api = api := by
  unfold executeTask executeTask.tryBlock
  simp [he, Event.isCall]

theorem executeTask_valid {σ : Type} (env : Env) (mk : Client σ)
    (content : JsStr) (jobData userId query : JsVal) (s : JsStr) (api api1 : σ)
    (hparse : env.jsonParse content = .ok jobData)
    (hu : jobData.getProp "userId" = .ok userId) (hut : userId.truthy = true)
    (hq : jobData.getProp "query" = .ok query) (hqt : query.truthy = true)
    (hmk : mk api userId query (.str (loadedState env userId)) = (.ok (.str s), api1))
    (hs : trim s ≠ []) :
    (executeTask env mk (some ⟨some content⟩) api).result = .ok () ∧
    (executeTask env mk (some ⟨some content⟩) api).api = api1 ∧
    (executeTask env mk (some ⟨some content⟩) api).events.filter Event.isSend =
      [.sendJobResult userId (.str (trim s))] ∧
    (executeTask env mk (some ⟨some content⟩) api).events.filter Event.isUpsert =
      [.upsertUserMessage userId query, .upsertBotResponse userId (.str (trim s))] := by
  have hp := processTask_valid env mk jobData userId query s api api1 hu hq hmk hs
  obtain ⟨h1, h2, h3⟩ := executeTask_of_processTask_ok env mk content jobData userId query
    api api1 (trim s) _ hparse hu hut hq hqt hp hs (trim_idem s)
  refine ⟨h1, h2, ?_, ?_⟩ <;> rcases h3 with h3 | h3 <;> rw [h3] <;>
    simp [Event.isSend, Event.isUpsert]

theorem makeRequest_throw_state (axiosPost : JsStr → Except JsError JsVal) (self : ApiHandler)
    (userId userInput context : JsVal) (e : JsError)
    (h : (ApiHandler.makeRequest axiosPost self userId userInput context).1 = .error e) :
    ApiHandler.makeRequest axiosPost self userId userInput context = (.error e, self) := by
  unfold ApiHandler.makeRequest at h ⊢
  repeat' split at h
  all_goals simp_all

theorem not_mem_of_filter_isSend {l : List Event} (h : l.filter Event.isSend = [])
    (userId response : JsVal) : Event.sendJobResult userId response ∉ l := by
  intro hm
  have : Event.sendJobResult userId response ∈ l.filter Event.isSend :=
    List.mem_filter.mpr ⟨hm, rfl⟩
  rw [h] at this
  exact absurd this (List.not_mem_nil _)

theorem executeTask_tryBlock_send {σ : Type} (env : Env) (mk : Client σ) (content : JsStr)
    (api : σ) (userId response : JsVal)
    (h : Event.sendJobResult userId response ∈ (executeTask.tryBlock env mk content api).events) :
    ∃ s, response = .str s ∧ s ≠ [] ∧ trim s = s := by
  unfold executeTask.tryBlock at h
  cases hparse : env.jsonParse content with
  | error e => simp [hparse] at h
  | ok jobData =>
    cases hu : jobData.getProp "userId" with
    | error e => simp [hparse, hu] at h
    | ok uid =>
      by_cases hut : uid.truthy = true
      swap
      · simp [hparse, hu, hut] at h
      cases hq : jobData.getProp "query" with
      | error e => simp [hparse, hu, hut, hq] at h
      | ok q =>
        by_cases hqt : q.truthy = true
        swap
        · simp [hparse, hu, hut, hq, hqt] at h
        have hns := processTask_events_not_send env mk jobData api
        have hres := processTask_result_trimmed env mk jobData api
        rcases hP : processTask env mk jobData api with ⟨res, api1, called⟩
        rw [hP] at hns hres
        simp only at hns hres
        have hnot := not_mem_of_filter_isSend hns userId response
        simp only [hparse, hu, hut, hq, hqt, hP] at h
        cases res with
        | error e => simp at h; exact absurd h hnot
        | ok resp =>
          obtain ⟨s, rfl, hs⟩ := hres resp rfl
          by_cases hse : s = []
          · subst hse
            simp [JsVal.truthy] at h
            exact absurd h hnot
          · have h1 : (JsVal.str s).truthy = true := by simp [JsVal.truthy, hse]
            have h2 : (JsVal.str s).callTrim = .ok s := by simp [JsVal.callTrim, hs]
            simp only [h1, h2] at h
            cases hsend : env.sendJobResult uid (.str s) <;>
              simp [hsend, hse, hnot] at h <;> exact ⟨s, h.2, hse, hs⟩

theorem executeTask_send {σ : Type} (env : Env) (mk : Client σ) (msg : Option Message)
    (api : σ) (userId response : JsVal)
    (h : Event.sendJobResult userId response ∈ (executeTask env mk msg api).events) :
    ∃ s, response = .str s ∧ s ≠ [] ∧ trim s = s := by
  unfold executeTask at h
  split at h
  · simp at h
  · split at h
    · simp at h
    · rename_i content _
      have key := executeTask_tryBlock_send env mk content api userId response
      split at h
      · rename_i heq
        rw [heq] at key
        exact key h
      · rename_i heq
        rw [heq] at key
        simp at h
        exact key h

/-! ## The conversation map -/

theorem sameValueZero_self {k : JsVal} (hk : k.isPrimitive = true) :
    k.sameValueZero k = true := by
  cases k <;> simp_all [JsVal.sameValueZero, JsVal.isPrimitive]

theorem mapGet_mapSet_self (m : List (JsVal × JsStr)) (k : JsVal) (v : JsStr)
    (hk : k.isPrimitive = true) : mapGet (mapSet m k v) k = some v := by
  have hkk := sameValueZero_self hk
  unfold mapSet
  split
  · rename_i hany
    unfold mapGet
    induction m with
    | nil => simp at hany
    | cons a m ih =>
      by_cases ha : a.1.sameValueZero k = true
      · simp [List.find?, ha]
      · have hany' : m.any (fun entry => entry.1.sameValueZero k) = true := by
          simpa [ha] using hany
        simp only [List.map_cons, ha, Bool.false_eq_true, if_false, List.find?]
        exact ih hany'
  · rename_i hany
    unfold mapGet
    have hnone : ∀ x ∈ m, (x.1.sameValueZero k) = false := by
      intro x hx
      by_contra hc
      exact hany (List.any_eq_true.mpr ⟨x, hx, by simpa using hc⟩)
    rw [List.find?_append]
    have : m.find? (fun entry => entry.1.sameValueZero k) = none := by
      rw [List.find?_eq_none]
      intro x hx
      simp [hnone x hx]
    simp [this, List.find?, hkk]

/-! ## `makeRequest` -/

theorem modelReply_ok {response : JsVal} {r : JsStr} (h : ApiHandler.modelReply response = .ok r) :
    r ≠ [] ∧ trim r = r := by
  unfold ApiHandler.modelReply at h
  simp only [bind, Except.bind, pure, Except.pure, throw, throwThe, MonadExceptOf.throw] at h
  repeat' split at h
  all_goals try simp at h
  rename_i t ht hne
  subst h
  obtain ⟨s, -, rfl⟩ := callTrim_ok ht
  exact ⟨by simpa using hne, trim_idem s⟩

theorem makeRequest_ok {axiosPost : JsStr → Except JsError JsVal} {self self1 : ApiHandler}
    {userId userInput context v : JsVal}
    (h : ApiHandler.makeRequest axiosPost self userId userInput context = (.ok v, self1)) :
    ∃ r, v = .str r ∧ r ≠ [] ∧ trim r = r ∧
      self1.systemPrompt = self.systemPrompt ∧
      self1.userConversations =
        mapSet self.userConversations userId (self.userHistory userId ++ r ++ js "[/s][INST]") := by
  unfold ApiHandler.makeRequest at h
  repeat' split at h
  all_goals simp at h
  rename_i r hr
  obtain ⟨hv, rfl⟩ := h
  obtain ⟨h1, h2⟩ := modelReply_ok hr
  exact ⟨r, hv.symm, h1, h2, rfl, by simp⟩

theorem suffix_length : (js "[/s][INST]").length = 10 := by decide

theorem userHistory_of_entry {self : ApiHandler} {userId : JsVal} {entry : JsStr}
    (h : mapGet self.userConversations userId = some entry) (hne : entry ≠ []) :
    self.userHistory userId = entry := by
  unfold ApiHandler.userHistory
  rw [h]
  simp [hne]

/-- After a successful call for a primitive `userId`, the entry is the history the
call started from, then the reply, then `[/s][INST]`. -/
theorem makeRequest_entry {axiosPost : JsStr → Except JsError JsVal} {self self1 : ApiHandler}
    {userId userInput context : JsVal} {r : JsStr} (hk : userId.isPrimitive = true)
    (h : ApiHandler.makeRequest axiosPost self userId userInput context = (.ok (.str r), self1)) :
    mapGet self1.userConversations userId =
        some (self.userHistory userId ++ r ++ js "[/s][INST]") ∧
    self1.userHistory userId = self.userHistory userId ++ r ++ js "[/s][INST]" := by
  obtain ⟨r1, hv, -, -, -, hmap⟩ := makeRequest_ok h
  have hr : r = r1 := by simpa using hv
  subst hr
  have hget : mapGet self1.userConversations userId =
      some (self.userHistory userId ++ r ++ js "[/s][INST]") := by
    rw [hmap]
    exact mapGet_mapSet_self _ _ _ hk
  refine ⟨hget, userHistory_of_entry hget ?_⟩
  intro hnil
  have := congrArg List.length hnil
  simp [suffix_length] at this

theorem turns_userHistory_length {userId : JsVal} {h h1 : ApiHandler} {replies : List JsStr}
    (hk : userId.isPrimitive = true) (ht : Turns userId h replies h1) :
    (h1.userHistory userId).length =
      (h.userHistory userId).length + (replies.map fun r => r.length + 10).sum := by
  induction ht with
  | done h => simp
  | turn axiosPost userInput context hmk _ ih =>
    rw [ih, (makeRequest_entry hk hmk).2]
    simp [suffix_length]
    omega

theorem turns_entry {userId : JsVal} {h h1 : ApiHandler} {replies : List JsStr}
    (hk : userId.isPrimitive = true) (ht : Turns userId h replies h1) (hne : replies ≠ []) :
    mapGet h1.userConversations userId = some (h1.userHistory userId) := by
  induction ht with
  | done h => exact absurd rfl hne
  | turn axiosPost userInput context hmk hrest ih =>
    rename_i h0 h1 h2 reply rest
    cases hrest with
    | done _ =>
      obtain ⟨ha, hb⟩ := makeRequest_entry hk hmk
      rw [ha, hb]
    | turn a u c hm hr => exact ih (by simp)



/-! ## The stored encoding -/

theorem convertStateToNumericalArray_str (s : JsStr) (d : Nat) :
    convertStateToNumericalArray (.str s) d =
      .ok (if s.length < d then s.map Int.ofNat ++ List.replicate (d - s.length) 0
        else (s.map Int.ofNat).take d) := by
  unfold convertStateToNumericalArray
  simp only [JsVal.callSplitChars, List.map_map, List.length_map]
  have : ((fun char : List Nat => ((char.headD 0 : Nat) : Int)) ∘ fun c => [c]) = Int.ofNat := by
    funext c
    rfl
  rw [this]
  split <;> rfl

theorem toUint16_ofNat {c : Nat} (h : c < 65536) : toUint16 (Int.ofNat c) = c := by
  unfold toUint16
  have : (Int.ofNat c) % 65536 = Int.ofNat c := Int.emod_eq_of_lt (by simp) (by simpa using h)
  rw [this]
  simp

theorem map_toUint16_ofNat {s : JsStr} (h : ∀ c ∈ s, c < 65536) :
    (s.map Int.ofNat).map toUint16 = s := by
  induction s with
  | nil => rfl
  | cons a s ih =>
    simp only [List.map_cons]
    rw [toUint16_ofNat (h a (by simp)), ih (fun c hc => h c (by simp [hc]))]

theorem trim_append_zeros {s : JsStr} (hstart : trimStart s = s) (k : Nat) :
    trim (s ++ List.replicate (k + 1) 0) = s ++ List.replicate (k + 1) 0 := by
  have hz : isWhiteSpace 0 = false := by decide
  have h1 : trimStart (s ++ List.replicate (k + 1) 0) = s ++ List.replicate (k + 1) 0 := by
    cases s with
    | nil => simp [trimStart, List.replicate_succ, List.dropWhile, hz]
    | cons a s =>
      have ha := dropWhile_head_false hstart
      simp [trimStart, List.dropWhile, ha]
  have h2 : trimEnd (s ++ List.replicate (k + 1) 0) = s ++ List.replicate (k + 1) 0 := by
    unfold trimEnd
    have hrev : (s ++ List.replicate (k + 1) 0).reverse =
        0 :: (List.replicate k 0 ++ s.reverse) := by
      rw [List.reverse_append, List.reverse_replicate, List.replicate_succ]
      rfl
    rw [hrev, List.dropWhile_cons_of_neg (by simp [hz]), ← hrev, List.reverse_reverse]
  unfold trim
  rw [h1, h2]

/-- Whenever the message is shorter than the dimension, decoding keeps the padding:
the result is the message followed by `dimension - length` code units `0`. -/
theorem convert_roundtrip_padded (s : JsStr) (d : Nat) (hlen : s.length < d)
    (hunits : ∀ c ∈ s, c < 65536) (hstart : trimStart s = s) :
    (convertStateToNumericalArray (.str s) d).map convertNumericalArrayToState =
      .ok (s ++ List.replicate (d - s.length) 0) := by
  rw [convertStateToNumericalArray_str]
  simp only [hlen, if_true, Except.map, convertNumericalArrayToState, List.map_append,
    List.map_replicate]
  rw [map_toUint16_ofNat hunits]
  obtain ⟨k, hk⟩ : ∃ k, d - s.length = k + 1 := ⟨d - s.length - 1, by omega⟩
  have h0 : toUint16 0 = 0 := rfl
  rw [hk, h0, trim_append_zeros hstart]

/-- A message of exactly `dimension` code units with no whitespace at either end is
given back by decoding. -/
theorem convert_roundtrip_exact (s : JsStr) (hunits : ∀ c ∈ s, c < 65536)
    (htrim : trim s = s) :
    (convertStateToNumericalArray (.str s) s.length).map convertNumericalArrayToState =
      .ok s := by
  rw [convertStateToNumericalArray_str]
  have : (s.map Int.ofNat).take s.length = s.map Int.ofNat := by
    rw [List.take_of_length_le (by simp)]
  simp only [Nat.lt_irrefl, if_false, Except.map, convertNumericalArrayToState, this]
  rw [map_toUint16_ofNat hunits, htrim]

/-! ## Replies `makeRequest` refuses -/

theorem modelReply_of_replyText {response text : JsVal}
    (h : ApiHandler.replyText response = .ok text) :
    ApiHandler.modelReply response =
      match text.callTrim with
      | .error e => .error e
      | .ok modelReply =>
        if modelReply.isEmpty then
          .error (.error "Received an empty string as response from the model.")
        else .ok modelReply := by
  unfold ApiHandler.replyText at h
  unfold ApiHandler.modelReply
  simp only [bind, Except.bind, pure, Except.pure, throw, throwThe, MonadExceptOf.throw] at h ⊢
  repeat' split at h
  all_goals try simp at h
  simp_all
  split <;> simp_all

/-- An unusable reply from the provider makes `makeRequest` throw. -/
theorem modelReply_unusable {response text : JsVal}
    (h : ApiHandler.replyText response = .ok text)
    (hbad : text.isString = false ∨ ∃ s, text = .str s ∧ trim s = []) :
    ∃ e, ApiHandler.modelReply response = .error e := by
  rw [modelReply_of_replyText h]
  rcases hbad with hns | ⟨s, rfl, hs⟩
  · cases text <;> simp_all [JsVal.isString, JsVal.callTrim]
  · simp [JsVal.callTrim, hs]

theorem makeRequest_sample (h : ApiHandler) :
    ∃ h1, ApiHandler.makeRequest (fun _ => .ok (completion "a")) h (.str (js "u1"))
      (.str (js "x")) (.str []) = (.ok (.str (js "a")), h1) := by
  have hp : h.prompt (.str (js "u1")) (.str (js "x")) (.str []) =
      .ok (h.userHistory (.str (js "u1")) ++ (js "x" ++ js "[/INST]")) := by
    have h1 : (JsVal.str (js "x")).truthy = true := rfl
    have h2 : (JsVal.str (js "x")).callTrim = .ok (js "x") := rfl
    have h3 : (js "x").isEmpty = false := rfl
    unfold ApiHandler.prompt
    simp [h1, h2, h3]
  have hm : ApiHandler.modelReply (completion "a") = .ok (js "a") := rfl
  unfold ApiHandler.makeRequest
  simp [hp, hm]

theorem turns_sample (n : Nat) (h : ApiHandler) :
    ∃ h1, Turns (.str (js "u1")) h (List.replicate n (js "a")) h1 := by
  induction n generalizing h with
  | zero => exact ⟨h, Turns.done h⟩
  | succ n ih =>
    obtain ⟨h1, hmk⟩ := makeRequest_sample h
    obtain ⟨h2, ht⟩ := ih h1
    exact ⟨h2, Turns.turn _ _ _ hmk ht⟩

theorem length_le_sum_reply_growth (replies : List JsStr) :
    replies.length ≤ (replies.map fun r => r.length + 10).sum := by
  induction replies with
  | nil => simp
  | cons r rs ih =>
    simp only [List.length_cons, List.map_cons, List.sum_cons]
    omega

/-! ## The claims -/

/-- C1. A message whose payload does not parse, or parses to a value whose `userId`
or `query` is missing or empty, makes `executeTask` return normally without a call
of `getUserConversationState`, `makeRequest`, `upsertUserMessage`,
`upsertBotResponse` or `sendJobResult`; the inference client is left untouched. -/
theorem executeTask_malformed_makes_no_call {σ : Type} (env : Env) (mk : Client σ)
    (content : JsStr) (api : σ)
    (h : (∃ e, env.jsonParse content = .error e) ∨
      ∃ v, env.jsonParse content = .ok v ∧
        (v.missingOrEmpty "userId" = true ∨ v.missingOrEmpty "query" = true)) :
    (executeTask env mk (some ⟨some content⟩) api).result = .ok () ∧
    (executeTask env mk (some ⟨some content⟩) api).events.filter Event.isCall = [] ∧
    (executeTask env mk (some ⟨some content⟩) api).api = api := by
  rcases h with ⟨e, he⟩ | ⟨v, hv, hm⟩
  · exact executeTask_unparseable env mk content api e he
  · exact executeTask_invalid_job env mk content api v hv hm

/-- Scenario B: the job `{userId: "u2", query: ""}` is dropped before any call. -/
theorem executeTask_malformed_makes_no_call_witness :
    (job "u2" "").missingOrEmpty "query" = true ∧
    (executeTask (Env.scenario (.ok (job "u2" "")) false)
      (Client.const (.ok (.str (js "hi")))) (some ⟨some []⟩) ()).result = .ok () ∧
    (executeTask (Env.scenario (.ok (job "u2" "")) false)
      (Client.const (.ok (.str (js "hi")))) (some ⟨some []⟩) ()).events.filter Event.isCall
        = [] ∧
    (executeTask (Env.scenario (.ok (job "u2" "")) false)
      (Client.const (.ok (.str (js "hi")))) (some ⟨some []⟩) ()).api = () :=
  ⟨rfl, executeTask_malformed_makes_no_call (Env.scenario (.ok (job "u2" "")) false)
    (Client.const (.ok (.str (js "hi")))) [] () (Or.inr ⟨job "u2" "", rfl, Or.inr rfl⟩)⟩

/-- C2. For a job with non-empty `userId` and `query`, when the provider's reply
(the `text` of the first choice) is not a string, or is a string that is empty
after trimming, the pipeline calls neither `upsertUserMessage` nor
`upsertBotResponse` and does not call `sendJobResult`: `makeRequest` throws on such
a reply, `processTask` passes the throw on and the `catch` of `executeTask` logs
it. The `ApiHandler` instance is left as it was. -/
theorem executeTask_unusable_reply_is_discarded (env : Env)
    (axiosPost : JsStr → Except JsError JsVal) (content : JsStr)
    (jobData userId query response text : JsVal) (self : ApiHandler) (prompt : JsStr)
    (hparse : env.jsonParse content = .ok jobData)
    (hu : jobData.getProp "userId" = .ok userId) (hut : userId.truthy = true)
    (hq : jobData.getProp "query" = .ok query) (hqt : query.truthy = true)
    (hprompt : self.prompt userId query (.str (loadedState env userId)) = .ok prompt)
    (hpost : axiosPost prompt = .ok response)
    (htext : ApiHandler.replyText response = .ok text)
    (hbad : text.isString = false ∨ ∃ s, text = .str s ∧ trim s = []) :
    (executeTask env (ApiHandler.makeRequest axiosPost)
      (some ⟨some content⟩) self).events.filter Event.isUpsert = [] ∧
    (executeTask env (ApiHandler.makeRequest axiosPost)
      (some ⟨some content⟩) self).events.filter Event.isSend = [] ∧
    (executeTask env (ApiHandler.makeRequest axiosPost)
      (some ⟨some content⟩) self).result = .ok () ∧
    (executeTask env (ApiHandler.makeRequest axiosPost) (some ⟨some content⟩) self).api =
      self := by
  obtain ⟨e, he⟩ := modelReply_unusable htext hbad
  have hmk : ApiHandler.makeRequest axiosPost self userId query
      (.str (loadedState env userId)) = (.error e, self) := by
    unfold ApiHandler.makeRequest
    simp [hprompt, hpost, he]
  have hp := processTask_throw env (ApiHandler.makeRequest axiosPost) jobData userId query
    self self e hu hq hmk
  rw [executeTask_of_processTask_throw env _ content jobData userId query self self e _
    hparse hu hut hq hqt hp]
  simp [Event.isUpsert, Event.isSend]

/-- Scenario D: the job `{userId: "u4", query: "x"}` when the provider replies with
the whitespace-only text `"   "`. -/
theorem executeTask_unusable_reply_is_discarded_witness :
    ApiHandler.replyText (completion "   ") = .ok (.str (js "   ")) ∧
    trim (js "   ") = [] ∧
    (executeTask (Env.scenario (.ok (job "u4" "x")) false)
      (ApiHandler.makeRequest (fun _ => .ok (completion "   ")))
      (some ⟨some []⟩) ApiHandler.new).events.filter Event.isUpsert = [] ∧
    (executeTask (Env.scenario (.ok (job "u4" "x")) false)
      (ApiHandler.makeRequest (fun _ => .ok (completion "   ")))
      (some ⟨some []⟩) ApiHandler.new).events.filter Event.isSend = [] ∧
    (executeTask (Env.scenario (.ok (job "u4" "x")) false)
      (ApiHandler.makeRequest (fun _ => .ok (completion "   ")))
      (some ⟨some []⟩) ApiHandler.new).result = .ok () ∧
    (executeTask (Env.scenario (.ok (job "u4" "x")) false)
      (ApiHandler.makeRequest (fun _ => .ok (completion "   ")))
      (some ⟨some []⟩) ApiHandler.new).api = ApiHandler.new :=
  ⟨rfl, rfl, executeTask_unusable_reply_is_discarded (Env.scenario (.ok (job "u4" "x")) false)
    (fun _ => .ok (completion "   ")) [] (job "u4" "x") (.str (js "u4")) (.str (js "x"))
    (completion "   ") (.str (js "   ")) ApiHandler.new (js "[INST] <<SYS>><</SYS>>\n\nx[/INST]")
    rfl rfl rfl rfl rfl rfl rfl rfl (Or.inr ⟨js "   ", rfl, rfl⟩)⟩

/-- C3. For a job with non-empty `userId` and `query` whose `makeRequest` call throws,
whatever the cause, the `ApiHandler` instance (so the user's entry in
`userConversations`) is what it was before the call, neither `upsertUserMessage` nor
`upsertBotResponse` is called, nothing is published, and `executeTask` returns
normally. -/
theorem executeTask_failed_inference_leaves_history (env : Env)
    (axiosPost : JsStr → Except JsError JsVal) (content : JsStr)
    (jobData userId query : JsVal) (self : ApiHandler) (e : JsError)
    (hparse : env.jsonParse content = .ok jobData)
    (hu : jobData.getProp "userId" = .ok userId) (hut : userId.truthy = true)
    (hq : jobData.getProp "query" = .ok query) (hqt : query.truthy = true)
    (hthrow : (ApiHandler.makeRequest axiosPost self userId query
      (.str (loadedState env userId))).1 = .error e) :
    (executeTask env (ApiHandler.makeRequest axiosPost) (some ⟨some content⟩) self).api = self ∧
    mapGet (executeTask env (ApiHandler.makeRequest axiosPost)
      (some ⟨some content⟩) self).api.userConversations userId =
        mapGet self.userConversations userId ∧
    (executeTask env (ApiHandler.makeRequest axiosPost)
      (some ⟨some content⟩) self).events.filter Event.isUpsert = [] ∧
    (executeTask env (ApiHandler.makeRequest axiosPost)
      (some ⟨some content⟩) self).events.filter Event.isSend = [] ∧
    (executeTask env (ApiHandler.makeRequest axiosPost)
      (some ⟨some content⟩) self).result = .ok () := by
  have hmk := makeRequest_throw_state axiosPost self userId query _ e hthrow
  have hp := processTask_throw env (ApiHandler.makeRequest axiosPost) jobData userId query
    self self e hu hq hmk
  rw [executeTask_of_processTask_throw env _ content jobData userId query self self e _
    hparse hu hut hq hqt hp]
  simp [Event.isUpsert, Event.isSend]

/-- Scenario C: the job `{userId: "u3", query: "x"}` when the HTTP call fails. -/
theorem executeTask_failed_inference_leaves_history_witness :
    (ApiHandler.makeRequest (fun _ => .error (.error "socket hang up")) ApiHandler.new
      (.str (js "u3")) (.str (js "x"))
      (.str (loadedState (Env.scenario (.ok (job "u3" "x")) false) (.str (js "u3"))))).1 =
        .error (.error "socket hang up") ∧
    (executeTask (Env.scenario (.ok (job "u3" "x")) false)
      (ApiHandler.makeRequest (fun _ => .error (.error "socket hang up")))
      (some ⟨some []⟩) ApiHandler.new).api = ApiHandler.new ∧
    mapGet (executeTask (Env.scenario (.ok (job "u3" "x")) false)
      (ApiHandler.makeRequest (fun _ => .error (.error "socket hang up")))
      (some ⟨some []⟩) ApiHandler.new).api.userConversations (.str (js "u3")) =
        mapGet ApiHandler.new.userConversations (.str (js "u3")) ∧
    (executeTask (Env.scenario (.ok (job "u3" "x")) false)
      (ApiHandler.makeRequest (fun _ => .error (.error "socket hang up")))
      (some ⟨some []⟩) ApiHandler.new).events.filter Event.isUpsert = [] ∧
    (executeTask (Env.scenario (.ok (job "u3" "x")) false)
      (ApiHandler.makeRequest (fun _ => .error (.error "socket hang up")))
      (some ⟨some []⟩) ApiHandler.new).events.filter Event.isSend = [] ∧
    (executeTask (Env.scenario (.ok (job "u3" "x")) false)
      (ApiHandler.makeRequest (fun _ => .error (.error "socket hang up")))
      (some ⟨some []⟩) ApiHandler.new).result = .ok () :=
  ⟨rfl, executeTask_failed_inference_leaves_history (Env.scenario (.ok (job "u3" "x")) false)
    (fun _ => .error (.error "socket hang up")) [] (job "u3" "x") (.str (js "u3"))
    (.str (js "x")) ApiHandler.new (.error "socket hang up") rfl rfl rfl rfl rfl rfl⟩

/-- C4. For a job with non-empty `userId` and `query` for which the inference client
returns a string `s` whose trim is not empty, `executeTask` calls `sendJobResult`
exactly once, with `userId` of the job and `trim s` as the response. -/
theorem executeTask_publishes_trimmed_reply {σ : Type} (env : Env) (mk : Client σ)
    (content : JsStr) (jobData userId query : JsVal) (s : JsStr) (api api1 : σ)
    (hparse : env.jsonParse content = .ok jobData)
    (hu : jobData.getProp "userId" = .ok userId) (hut : userId.truthy = true)
    (hq : jobData.getProp "query" = .ok query) (hqt : query.truthy = true)
    (hmk : mk api userId query (.str (loadedState env userId)) = (.ok (.str s), api1))
    (hs : trim s ≠ []) :
    (executeTask env mk (some ⟨some content⟩) api).events.filter Event.isSend =
      [.sendJobResult userId (.str (trim s))] :=
  (executeTask_valid env mk content jobData userId query s api api1
    hparse hu hut hq hqt hmk hs).2.2.1

/-- Scenario A: the job `{userId: "u1", query: "hello"}` answered ` hi there `. -/
theorem executeTask_publishes_trimmed_reply_witness :
    trim (js " hi there ") ≠ [] ∧
    (executeTask (Env.scenario (.ok (job "u1" "hello")) false)
      (Client.const (.ok (.str (js " hi there ")))) (some ⟨some []⟩) ()).events.filter
        Event.isSend = [.sendJobResult (.str (js "u1")) (.str (trim (js " hi there ")))] :=
  ⟨by decide, executeTask_publishes_trimmed_reply (Env.scenario (.ok (job "u1" "hello")) false)
    (Client.const (.ok (.str (js " hi there ")))) [] (job "u1" "hello") (.str (js "u1"))
    (.str (js "hello")) (js " hi there ") () () rfl rfl rfl rfl rfl rfl (by decide)⟩

/-- C5. Whatever the message and whatever the inference client returns, every
result `executeTask` passes to `sendJobResult` has a response that is a string, is
not empty, and equals its own trim. -/
theorem executeTask_published_response_trimmed {σ : Type} (env : Env) (mk : Client σ)
    (msg : Option Message) (api : σ) (userId response : JsVal)
    (h : Event.sendJobResult userId response ∈ (executeTask env mk msg api).events) :
    ∃ s, response = .str s ∧ s ≠ [] ∧ trim s = s :=
  executeTask_send env mk msg api userId response h

/-- The result published in scenario A. -/
theorem executeTask_published_response_trimmed_witness :
    Event.sendJobResult (.str (js "u1")) (.str (js "hi there")) ∈
      (executeTask (Env.scenario (.ok (job "u1" "hello")) false)
        (Client.const (.ok (.str (js " hi there ")))) (some ⟨some []⟩) ()).events ∧
    ∃ s, JsVal.str (js "hi there") = .str s ∧ s ≠ [] ∧ trim s = s :=
  have hmem : Event.sendJobResult (.str (js "u1")) (.str (js "hi there")) ∈
      (executeTask (Env.scenario (.ok (job "u1" "hello")) false)
        (Client.const (.ok (.str (js " hi there ")))) (some ⟨some []⟩) ()).events :=
    List.mem_append_right _ (List.mem_singleton_self _)
  ⟨hmem, executeTask_published_response_trimmed _ _ _ _ _ _ hmem⟩

/-- C6, as stated, fails: no maximum bounds the entry. For the user `u1`, starting
from a fresh `ApiHandler`, whatever bound is proposed, some run of successful turns
leaves an entry in `userConversations` longer than the bound. -/
theorem userConversations_entry_unbounded :
    ¬ ∃ maximum : Nat, ∀ (replies : List JsStr) (h : ApiHandler) (entry : JsStr),
      Turns (.str (js "u1")) ApiHandler.new replies h →
      mapGet h.userConversations (.str (js "u1")) = some entry →
      entry.length ≤ maximum := by
  rintro ⟨maximum, hmax⟩
  obtain ⟨h, ht⟩ := turns_sample (maximum + 1) ApiHandler.new
  have hk : (JsVal.str (js "u1")).isPrimitive = true := rfl
  have hentry := turns_entry hk ht (by simp)
  have hlen := turns_userHistory_length hk ht
  have hle := hmax _ _ _ ht hentry
  have ha : (js "a").length = 1 := rfl
  simp [ha] at hlen
  rw [hlen] at hle
  nlinarith

/-- C6, amended. For every user with a primitive `userId` and every run of
successful turns, the user's entry in `userConversations` is strictly longer than
the history the run started from, by at least one code unit for each turn: every
turn makes it longer and no maximum cuts it. -/
theorem turns_entry_grows (userId : JsVal) (h h1 : ApiHandler) (replies : List JsStr)
    (hk : userId.isPrimitive = true) (ht : Turns userId h replies h1) (hne : replies ≠ []) :
    ∃ entry, mapGet h1.userConversations userId = some entry ∧
      (h.userHistory userId).length < entry.length ∧
      (h.userHistory userId).length + replies.length ≤ entry.length := by
  refine ⟨h1.userHistory userId, turns_entry hk ht hne, ?_⟩
  have hlen := turns_userHistory_length hk ht
  have hsum := length_le_sum_reply_growth replies
  have hpos : 0 < replies.length := List.length_pos.mpr hne
  omega

/-- One turn for `u1` from a fresh instance, answered `hi there`. -/
theorem turns_entry_grows_witness :
    ∃ entry,
      mapGet (ApiHandler.makeRequest (fun _ => .ok (completion "hi there")) ApiHandler.new
        (.str (js "u1")) (.str (js "hello")) (.str [])).2.userConversations (.str (js "u1")) =
          some entry ∧
      (ApiHandler.new.userHistory (.str (js "u1"))).length < entry.length ∧
      (ApiHandler.new.userHistory (.str (js "u1"))).length + [js "hi there"].length ≤
        entry.length :=
  turns_entry_grows (.str (js "u1")) ApiHandler.new _ [js "hi there"] rfl
    (Turns.turn (fun _ => .ok (completion "hi there")) (.str (js "hello")) (.str []) rfl
      (Turns.done _)) (by simp)

/-- C7. For a job with non-empty `userId` and `query` and a reply `s` that is a
string, not empty after trimming, a failing store write inside `upsertUserMessage`
or `upsertBotResponse` changes nothing for the requester: both writes are
attempted, `processTask` returns `trim s`, and `executeTask` publishes
`{userId, response: trim s}` and returns normally. -/
theorem executeTask_publishes_despite_store_failure {σ : Type} (env : Env) (mk : Client σ)
    (content : JsStr) (jobData userId query : JsVal) (s : JsStr) (api api1 : σ) (e : JsError)
    (hparse : env.jsonParse content = .ok jobData)
    (hu : jobData.getProp "userId" = .ok userId) (hut : userId.truthy = true)
    (hq : jobData.getProp "query" = .ok query) (hqt : query.truthy = true)
    (hmk : mk api userId query (.str (loadedState env userId)) = (.ok (.str s), api1))
    (hs : trim s ≠ [])
    (_hfail : upsertUserMessage.tryBlock env userId query = .error e ∨
      upsertBotResponse.tryBlock env userId (.str (trim s)) = .error e) :
    (processTask env mk jobData api).result = .ok (.str (trim s)) ∧
    (executeTask env mk (some ⟨some content⟩) api).events.filter Event.isUpsert =
      [.upsertUserMessage userId query, .upsertBotResponse userId (.str (trim s))] ∧
    (executeTask env mk (some ⟨some content⟩) api).events.filter Event.isSend =
      [.sendJobResult userId (.str (trim s))] ∧
    (executeTask env mk (some ⟨some content⟩) api).result = .ok () := by
  have hp := processTask_valid env mk jobData userId query s api api1 hu hq hmk hs
  have hx := executeTask_valid env mk content jobData userId query s api api1
    hparse hu hut hq hqt hmk hs
  exact ⟨by rw [hp], hx.2.2.2, hx.2.2.1, hx.1⟩

/-- Scenario A with a store whose every `index.upsert` fails. -/
theorem executeTask_publishes_despite_store_failure_witness :
    upsertUserMessage.tryBlock (Env.scenario (.ok (job "u1" "hello")) true)
      (.str (js "u1")) (.str (js "hello")) = .error (.error "upsert failed") ∧
    (processTask (Env.scenario (.ok (job "u1" "hello")) true)
      (Client.const (.ok (.str (js "hi there")))) (job "u1" "hello") ()).result =
        .ok (.str (trim (js "hi there"))) ∧
    (executeTask (Env.scenario (.ok (job "u1" "hello")) true)
      (Client.const (.ok (.str (js "hi there")))) (some ⟨some []⟩) ()).events.filter
        Event.isUpsert =
      [.upsertUserMessage (.str (js "u1")) (.str (js "hello")),
       .upsertBotResponse (.str (js "u1")) (.str (trim (js "hi there")))] ∧
    (executeTask (Env.scenario (.ok (job "u1" "hello")) true)
      (Client.const (.ok (.str (js "hi there")))) (some ⟨some []⟩) ()).events.filter
        Event.isSend = [.sendJobResult (.str (js "u1")) (.str (trim (js "hi there")))] ∧
    (executeTask (Env.scenario (.ok (job "u1" "hello")) true)
      (Client.const (.ok (.str (js "hi there")))) (some ⟨some []⟩) ()).result = .ok () :=
  ⟨rfl, executeTask_publishes_despite_store_failure (Env.scenario (.ok (job "u1" "hello")) true)
    (Client.const (.ok (.str (js "hi there")))) [] (job "u1" "hello") (.str (js "u1"))
    (.str (js "hello")) (js "hi there") () () (.error "upsert failed") rfl rfl rfl rfl rfl rfl
    (by decide) (Or.inl rfl)⟩

/-- C8 at scenario A. After the successful turn of `u1` with query `hello` and reply
`hi there` on a fresh `ApiHandler`, the entry that seeds the next prompt is the
initial template, then the reply, then `[/s][INST]`; the query `hello` occurs
nowhere in it. -/
theorem makeRequest_stored_history_omits_query :
    ApiHandler.makeRequest (fun _ => .ok (completion "hi there")) ApiHandler.new
      (.str (js "u1")) (.str (js "hello")) (.str []) =
      (.ok (.str (js "hi there")),
        { systemPrompt := js "",
          userConversations :=
            [(.str (js "u1"), js "[INST] <<SYS>><</SYS>>\n\nhi there[/s][INST]")] }) ∧
    ¬ (js "hello" <:+: js "[INST] <<SYS>><</SYS>>\n\nhi there[/s][INST]") :=
  ⟨rfl, by decide⟩

/-- C9, as stated, fails. Two calls of `makeRequest` for `u1` with the same input
`hello` and the same context argument `''`, one on a fresh `ApiHandler` and one
after a first turn, assemble different prompts. -/
theorem prompt_differs_for_equal_context_and_input :
    ApiHandler.new.prompt (.str (js "u1")) (.str (js "hello")) (.str []) =
      .ok (js "[INST] <<SYS>><</SYS>>\n\nhello[/INST]") ∧
    (ApiHandler.makeRequest (fun _ => .ok (completion "hi there")) ApiHandler.new
      (.str (js "u1")) (.str (js "hello")) (.str [])).2.prompt
        (.str (js "u1")) (.str (js "hello")) (.str []) =
      .ok (js "[INST] <<SYS>><</SYS>>\n\nhi there[/s][INST]hello[/INST]") ∧
    js "[INST] <<SYS>><</SYS>>\n\nhello[/INST]" ≠
      js "[INST] <<SYS>><</SYS>>\n\nhi there[/s][INST]hello[/INST]" :=
  ⟨rfl, rfl, by decide⟩

/-- C9, amended. The prompt is a function of the history `makeRequest` reads from
`userConversations` for the user (the initial template when there is none) and of
`userInput` alone: two calls that read equal histories and get equal inputs assemble
equal prompts, whatever their context arguments. -/
theorem prompt_determined_by_history_and_input (self self1 : ApiHandler)
    (userId userId1 userInput context context1 : JsVal)
    (h : self.userHistory userId = self1.userHistory userId1) :
    self.prompt userId userInput context = self1.prompt userId1 userInput context1 := by
  unfold ApiHandler.prompt
  rw [h]

/-- Two fresh users with the same input and different context arguments. -/
theorem prompt_determined_by_history_and_input_witness :
    ApiHandler.new.userHistory (.str (js "u1")) = ApiHandler.new.userHistory (.str (js "u2")) ∧
    ApiHandler.new.prompt (.str (js "u1")) (.str (js "hello")) (.str []) =
      ApiHandler.new.prompt (.str (js "u2")) (.str (js "hello")) (.str (js "earlier")) :=
  ⟨rfl, prompt_determined_by_history_and_input ApiHandler.new ApiHandler.new (.str (js "u1"))
    (.str (js "u2")) (.str (js "hello")) (.str []) (.str (js "earlier")) rfl⟩

/-- C10 at `s = "hi"`, `dimension = 62`. The string has two code units, no leading
or trailing whitespace, and decoding its stored encoding gives `hi` followed by the
sixty padding code units `0`, which `trim` does not remove: not `hi`. -/
theorem convert_roundtrip_keeps_padding :
    (js "hi").length ≤ 62 ∧ trim (js "hi") = js "hi" ∧
    (convertStateToNumericalArray (.str (js "hi")) 62).map convertNumericalArrayToState =
      .ok (js "hi" ++ List.replicate 60 0) ∧
    js "hi" ++ List.replicate 60 0 ≠ js "hi" :=
  ⟨by decide, by decide, rfl, by decide⟩

end DiscordAIBot
